import Mathlib

/-!
Verification of the SNID-SAGE classification pipeline specification against
the repository source, over a shallow embedding in Lean 4.

Conventions used throughout:
* Python floats are modelled by `ℚ` (all the arithmetic relevant to the
  claims is exact: sums, products, divisions and powers of rationals).
* Transcendental functions that the source applies (`log`, `exp`, `cos`,
  `10**x`) are irrelevant to, or are quantified over by, the claims at
  hand; they enter the embedding as explicit function parameters, so each
  theorem states exactly which properties of them it uses (usually none,
  or monotonicity).
* Python's `list.sort` / `sorted` are stable sorts; a stable sort of a
  list under a total preorder is unique, so they are modelled by a stable
  insertion sort (`sortDescBy` below) which evaluates by `decide`.
-/

namespace SnidSage

/-! ## Stable descending sort (model of Python `list.sort(key=…, reverse=True)`)

Python's Timsort is stable, and with `reverse=True` it produces the
descending order in which elements with equal keys keep their original
relative order.  Any stable descending sort produces that exact list, so
the insertion sort below is extensionally the same function. -/

/-- Insert `x` into `l` (assumed sorted in descending key order): skip over
elements with a strictly larger key, and land before the first element
whose key is `≤` the key of `x`.  Keeping `x` after earlier-inserted equal
keys is what makes the sort stable. -/
def insertDescBy (key : α → ℚ) (x : α) : List α → List α
  | [] => [x]
  | y :: ys => if key x < key y then y :: insertDescBy key x ys else x :: y :: ys

/-- Stable descending sort by `key`; model of `list.sort(key=key, reverse=True)`. -/
def sortDescBy (key : α → ℚ) : List α → List α
  | [] => []
  | x :: xs => insertDescBy key x (sortDescBy key xs)

/-- The first element of the list attaining the maximal key (ties go to the
earlier element).  This is the head that any stable descending sort produces. -/
def firstMaxBy (key : α → ℚ) : List α → Option α
  | [] => none
  | x :: xs =>
    match firstMaxBy key xs with
    | none => some x
    | some m => if key x < key m then some m else some x

theorem insertDescBy_perm (key : α → ℚ) (x : α) :
    ∀ l : List α, List.Perm (insertDescBy key x l) (x :: l)
  | [] => by simp [insertDescBy]
  | y :: ys => by
    unfold insertDescBy
    split
    · exact ((insertDescBy_perm key x ys).cons y).trans (List.Perm.swap x y ys)
    · exact List.Perm.refl _

theorem sortDescBy_perm (key : α → ℚ) : ∀ l : List α, List.Perm (sortDescBy key l) l
  | [] => List.Perm.refl _
  | x :: xs =>
    (insertDescBy_perm key x (sortDescBy key xs)).trans ((sortDescBy_perm key xs).cons x)

theorem head?_insertDescBy (key : α → ℚ) (x : α) (l : List α) :
    (insertDescBy key x l).head? =
      some (match l.head? with
            | none => x
            | some y => if key x < key y then y else x) := by
  cases l with
  | nil => rfl
  | cons y ys => by_cases hk : key x < key y <;> simp [insertDescBy, hk]

theorem head?_sortDescBy (key : α → ℚ) :
    ∀ l : List α, (sortDescBy key l).head? = firstMaxBy key l
  | [] => rfl
  | x :: xs => by
    rw [sortDescBy, head?_insertDescBy, firstMaxBy, head?_sortDescBy key xs]
    cases h : firstMaxBy key xs with
    | none => rfl
    | some m => by_cases hk : key x < key m <;> simp [hk]

theorem firstMaxBy_eq_none (key : α → ℚ) :
    ∀ {l : List α}, firstMaxBy key l = none → l = [] := by
  intro l h
  cases l with
  | nil => rfl
  | cons x xs =>
    rw [firstMaxBy] at h
    revert h
    cases firstMaxBy key xs with
    | none => intro h; cases h
    | some m =>
      intro h
      by_cases hk : key x < key m <;> simp [hk] at h

theorem firstMaxBy_mem (key : α → ℚ) :
    ∀ {l : List α} {m : α}, firstMaxBy key l = some m → m ∈ l := by
  intro l
  induction l with
  | nil => intro m h; cases h
  | cons x xs ih =>
    intro m h
    rw [firstMaxBy] at h
    revert h
    cases h' : firstMaxBy key xs with
    | none => intro h; cases h; exact List.mem_cons_self _ _
    | some m' =>
      intro h
      by_cases hk : key x < key m'
      · simp only [hk, if_pos] at h
        cases h; exact List.mem_cons_of_mem _ (ih h')
      · simp only [hk, if_neg, not_false_iff] at h
        cases h; exact List.mem_cons_self _ _

theorem firstMaxBy_le (key : α → ℚ) :
    ∀ {l : List α} {m : α}, firstMaxBy key l = some m →
      ∀ x ∈ l, key x ≤ key m := by
  intro l
  induction l with
  | nil => intro m _ x hx; cases hx
  | cons a as ih =>
    intro m h x hx
    rw [firstMaxBy] at h
    revert h
    cases h' : firstMaxBy key as with
    | none =>
      intro h
      cases h
      have has : as = [] := firstMaxBy_eq_none key h'
      subst has
      rcases List.mem_cons.mp hx with rfl | hx'
      · exact le_refl _
      · cases hx'
    | some m' =>
      intro h
      by_cases hk : key a < key m'
      · simp only [hk, if_pos] at h
        cases h
        rcases List.mem_cons.mp hx with rfl | hx'
        · exact le_of_lt hk
        · exact ih h' x hx'
      · simp only [hk, if_neg, not_false_iff] at h
        cases h
        rcases List.mem_cons.mp hx with rfl | hx'
        · exact le_refl _
        · exact le_trans (ih h' x hx') (not_lt.mp hk)

theorem firstMaxBy_isSome (key : α → ℚ) :
    ∀ {l : List α}, l ≠ [] → ∃ m, firstMaxBy key l = some m := by
  intro l
  cases l with
  | nil => intro h; exact absurd rfl h
  | cons x xs =>
    intro _
    rw [firstMaxBy]
    cases firstMaxBy key xs with
    | none => exact ⟨x, rfl⟩
    | some m => by_cases hk : key x < key m <;> simp [hk]

/-- `firstMaxBy` really returns the FIRST maximal element: everything
strictly before it in the list has a strictly smaller key. -/
theorem firstMaxBy_first (key : α → ℚ) :
    ∀ {l : List α} {m : α}, firstMaxBy key l = some m →
      ∃ pre post, l = pre ++ m :: post ∧ ∀ x ∈ pre, key x < key m := by
  intro l
  induction l with
  | nil => intro m h; cases h
  | cons a as ih =>
    intro m h
    rw [firstMaxBy] at h
    revert h
    cases h' : firstMaxBy key as with
    | none =>
      intro h
      cases h
      exact ⟨[], as, rfl, by intro x hx; cases hx⟩
    | some m' =>
      intro h
      by_cases hk : key a < key m'
      · simp only [hk, if_pos] at h
        cases h
        obtain ⟨pre, post, hsplit, hpre⟩ := ih h'
        refine ⟨a :: pre, post, by simp [hsplit], ?_⟩
        intro x hx
        rcases List.mem_cons.mp hx with rfl | hx'
        · exact hk
        · exact hpre x hx'
      · simp only [hk, if_neg, not_false_iff] at h
        cases h
        exact ⟨[], as, rfl, by intro x hx; cases hx⟩

/-! ## Clustering: `snid_sage/snid/cosmological_clustering.py`

A template match is a Python dict; the fields below are the ones the
clustering code reads.  `rlap` and `rlap_cos` are `Option` because the
source accesses them with `dict.get` and a default. -/

structure MatchT where
  redshift : ℚ
  redshift_error : ℚ
  rlap : Option ℚ
  rlap_cos : Option ℚ
  subtype : Option String
deriving DecidableEq

/-- `match.get(metric_key, match.get('rlap', 0))` where `metric_key` is
`'rlap_cos'` when `use_rlap_cos` else `'rlap'` (cosmological_clustering.py:807). -/
def getMetric (useRlapCos : Bool) (m : MatchT) : ℚ :=
  if useRlapCos then m.rlap_cos.getD (m.rlap.getD 0) else m.rlap.getD (m.rlap.getD 0)

/-- A cluster candidate as consumed by `find_winning_cluster_top5_method`:
only `type`, `cluster_id` and `matches` are read by the selection code. -/
structure ClusterCand where
  type : String
  cluster_id : ℤ
  «matches» : List MatchT
deriving DecidableEq

/-- The per-cluster score record built inside
`find_winning_cluster_top5_method` (cosmological_clustering.py:837-846). -/
structure ClusterScoreInfo where
  cluster : ClusterCand
  cluster_size : ℕ
  top_5_values : List ℚ
  top_5_mean : ℚ
  penalty_factor : ℚ
  penalized_score : ℚ
deriving DecidableEq

/-- The body of the scoring loop of `find_winning_cluster_top5_method`
(cosmological_clustering.py:804-846): extract the metric values, sort them
descending, take the top 5, mean them, and penalise clusters with fewer
than 5 matches by `0.95 ** (5 - len(metric_values))`. -/
def scoreInfoOf (useRlapCos : Bool) (c : ClusterCand) : ClusterScoreInfo :=
  let metricValues := sortDescBy id (c.«matches».map (getMetric useRlapCos))
  let top5 := metricValues.take 5
  let top5mean : ℚ := if top5.isEmpty then 0 else top5.sum / (top5.length : ℚ)
  let pf : ℚ := if metricValues.length < 5 then (19/20 : ℚ) ^ (5 - metricValues.length) else 1
  { cluster := c
    cluster_size := c.«matches».length
    top_5_values := top5
    top_5_mean := top5mean
    penalty_factor := pf
    penalized_score := top5mean * pf }

/-- The `cluster_scores` list of `find_winning_cluster_top5_method`:
candidates whose `matches` list is empty are skipped (`continue`,
cosmological_clustering.py:800-801). -/
def clusterScores (useRlapCos : Bool) (cands : List ClusterCand) : List ClusterScoreInfo :=
  cands.filterMap fun c => if c.«matches».isEmpty then none else some (scoreInfoOf useRlapCos c)

/-- `find_winning_cluster_top5_method` (cosmological_clustering.py:760-880):
sort the score records by `penalized_score` descending (Python's stable
sort) and return the first one's cluster; `None` when no candidate has
matches. -/
def find_winning_cluster_top5_method (useRlapCos : Bool) (cands : List ClusterCand) :
    Option ClusterCand :=
  ((sortDescBy (fun i => i.penalized_score) (clusterScores useRlapCos cands)).head?).map
    (fun i : ClusterScoreInfo => i.cluster)

theorem cluster_of_scoreInfoOf (u : Bool) (c : ClusterCand) : (scoreInfoOf u c).cluster = c := rfl

/-- Splitting a `filterMap` around a produced element locates its preimage. -/
theorem filterMap_eq_append_cons {f : α → Option β} :
    ∀ {l : List α} {l₁ : List β} {b : β} {l₂ : List β},
      l.filterMap f = l₁ ++ b :: l₂ →
      ∃ p a q, l = p ++ a :: q ∧ f a = some b ∧ p.filterMap f = l₁ ∧ q.filterMap f = l₂ := by
  intro l
  induction l with
  | nil =>
    intro l₁ b l₂ h
    simp only [List.filterMap_nil] at h
    exact absurd h.symm (by simp)
  | cons x xs ih =>
    intro l₁ b l₂ h
    rw [List.filterMap_cons] at h
    revert h
    cases hfx : f x with
    | none =>
      intro h
      obtain ⟨p, a, q, h1, h2, h3, h4⟩ := ih h
      exact ⟨x :: p, a, q, by simp [h1], h2, by rw [List.filterMap_cons, hfx, h3], h4⟩
    | some y =>
      intro h
      cases l₁ with
      | nil =>
        simp only [List.nil_append] at h
        obtain ⟨hy, hxs⟩ := List.cons.inj h
        exact ⟨[], x, xs, rfl, by rw [hfx, hy], rfl, hxs⟩
      | cons z l₁' =>
        simp only [List.cons_append] at h
        obtain ⟨hy, hxs⟩ := List.cons.inj h
        obtain ⟨p, a, q, h1, h2, h3, h4⟩ := ih hxs
        exact ⟨x :: p, a, q, by simp [h1], h2,
          by rw [List.filterMap_cons, hfx, h3, hy], h4⟩

/-- Helper: the nonempty-matches candidates all appear in `clusterScores`. -/
theorem scoreInfoOf_mem_clusterScores (u : Bool) {cands : List ClusterCand}
    {c : ClusterCand} (hc : c ∈ cands) (hm : c.«matches» ≠ []) :
    scoreInfoOf u c ∈ clusterScores u cands := by
  refine List.mem_filterMap.mpr ⟨c, hc, ?_⟩
  have : c.«matches».isEmpty = false := by
    cases h : c.«matches» with
    | nil => exact absurd h hm
    | cons a as => rfl
  simp [this]

/-- C1 (amended): whenever some candidate has at least one match, the
selected cluster exists, has matches, attains the maximum
`penalized_score` among all candidates with matches, and is the EARLIEST
such candidate in the input order (Python's sort is stable); no size or
type-name tie-breaking occurs. -/
theorem find_winning_cluster_top5_method_first_max (u : Bool) (cands : List ClusterCand)
    (c0 : ClusterCand) (hc0 : c0 ∈ cands) (hm0 : c0.«matches» ≠ []) :
    ∃ w, find_winning_cluster_top5_method u cands = some w ∧
      w ∈ cands ∧ w.«matches» ≠ [] ∧
      (∀ c ∈ cands, c.«matches» ≠ [] →
        (scoreInfoOf u c).penalized_score ≤ (scoreInfoOf u w).penalized_score) ∧
      ∃ pre post, cands = pre ++ w :: post ∧
        ∀ c ∈ pre, c.«matches» ≠ [] →
          (scoreInfoOf u c).penalized_score < (scoreInfoOf u w).penalized_score := by
  have hmem0 : scoreInfoOf u c0 ∈ clusterScores u cands := scoreInfoOf_mem_clusterScores u hc0 hm0
  have hne : clusterScores u cands ≠ [] := by
    intro h; rw [h] at hmem0; cases hmem0
  obtain ⟨info, hinfo⟩ :=
    firstMaxBy_isSome (fun i : ClusterScoreInfo => i.penalized_score) hne
  -- locate the winner in the candidate list via the stability split
  obtain ⟨preI, postI, hsplitI, hpreI⟩ :=
    firstMaxBy_first (fun i : ClusterScoreInfo => i.penalized_score) hinfo
  obtain ⟨p, a, q, hpq, hfa, hfp, _⟩ := filterMap_eq_append_cons hsplitI
  have hamane : a.«matches».isEmpty = false := by
    by_contra hcontra
    have : a.«matches».isEmpty = true := by
      cases h : a.«matches».isEmpty
      · exact absurd h hcontra
      · rfl
    simp [this] at hfa
  have hinfoa : info = scoreInfoOf u a := by
    simp only [hamane, Bool.false_eq_true, if_neg] at hfa
    exact (Option.some.inj hfa).symm
  have hane : a.«matches» ≠ [] := by
    intro h
    rw [h] at hamane
    simp [List.isEmpty] at hamane
  refine ⟨a, ?_, ?_, hane, ?_, ?_⟩
  · rw [find_winning_cluster_top5_method, head?_sortDescBy, hinfo, hinfoa]
    rfl
  · rw [hpq]; exact List.mem_append_right p (List.mem_cons_self a q)
  · intro c hc hm
    have := firstMaxBy_le (fun i : ClusterScoreInfo => i.penalized_score) hinfo
      (scoreInfoOf u c) (scoreInfoOf_mem_clusterScores u hc hm)
    rw [hinfoa] at this
    exact this
  · refine ⟨p, q, hpq, ?_⟩
    intro c hc hm
    have hmemc : scoreInfoOf u c ∈ preI := by
      rw [← hfp]
      refine List.mem_filterMap.mpr ⟨c, hc, ?_⟩
      have : c.«matches».isEmpty = false := by
        cases h : c.«matches» with
        | nil => exact absurd h hm
        | cons x xs => rfl
      simp [this]
    have := hpreI (scoreInfoOf u c) hmemc
    rw [hinfoa] at this
    exact this

/-- Concrete candidates used in the C1 witness and counterexample:
`cTieSmall` has 1 match of metric 10 (score `10·0.95⁴`), `cTieBig` has 2
matches of metric 9.5 (score `9.5·0.95³`); the two penalized scores are
exactly equal. -/
def mTie10 : MatchT :=
  { redshift := 1/100
    redshift_error := 1/1000
    rlap := none
    rlap_cos := some 10
    subtype := some "norm" }

def mTie95 : MatchT :=
  { redshift := 1/100
    redshift_error := 1/1000
    rlap := none
    rlap_cos := some (19/2)
    subtype := some "P" }

def cTieSmall : ClusterCand :=
  { type := "Ia"
    cluster_id := 0
    «matches» := [mTie10] }

def cTieBig : ClusterCand :=
  { type := "II"
    cluster_id := 0
    «matches» := [mTie95, mTie95] }

/-- Both tie candidates score exactly `130321/16000 = 10·0.95⁴ = 9.5·0.95³`. -/
theorem cTie_scores_equal :
    (scoreInfoOf true cTieSmall).penalized_score = 130321/16000 ∧
      (scoreInfoOf true cTieBig).penalized_score = 130321/16000 := by
  constructor <;>
    norm_num [scoreInfoOf, getMetric, sortDescBy, insertDescBy, cTieSmall, cTieBig,
      mTie10, mTie95, List.sum_cons, List.sum_nil]

/-- C1 counterexample: two candidates with exactly equal `penalized_score`;
the code keeps the candidate that comes first in the input list even
though it is the SMALLER cluster, contradicting the claimed
larger-size/type-name tie-breaking. -/
theorem find_winning_cluster_tie_not_by_size :
    (scoreInfoOf true cTieSmall).penalized_score = (scoreInfoOf true cTieBig).penalized_score ∧
      cTieSmall.«matches».length < cTieBig.«matches».length ∧
      find_winning_cluster_top5_method true [cTieSmall, cTieBig] = some cTieSmall := by
  obtain ⟨h1, h2⟩ := cTie_scores_equal
  have hEq : (scoreInfoOf true cTieSmall).penalized_score =
      (scoreInfoOf true cTieBig).penalized_score := by rw [h1, h2]
  refine ⟨hEq, by simp [cTieSmall, cTieBig], ?_⟩
  have hscored : clusterScores true [cTieSmall, cTieBig] =
      [scoreInfoOf true cTieSmall, scoreInfoOf true cTieBig] := rfl
  rw [find_winning_cluster_top5_method, hscored, head?_sortDescBy]
  simp only [firstMaxBy]
  rw [if_neg (by rw [hEq]; exact lt_irrefl _)]
  rfl

/-- Witness for the amended C1 theorem at the concrete pair of candidates. -/
theorem find_winning_cluster_top5_method_first_max_witness :
    ∃ w, find_winning_cluster_top5_method true [cTieSmall, cTieBig] = some w ∧
      w ∈ [cTieSmall, cTieBig] ∧ w.«matches» ≠ [] ∧
      (∀ c ∈ [cTieSmall, cTieBig], c.«matches» ≠ [] →
        (scoreInfoOf true c).penalized_score ≤ (scoreInfoOf true w).penalized_score) ∧
      ∃ pre post, [cTieSmall, cTieBig] = pre ++ w :: post ∧
        ∀ c ∈ pre, c.«matches» ≠ [] →
          (scoreInfoOf true c).penalized_score < (scoreInfoOf true w).penalized_score :=
  find_winning_cluster_top5_method_first_max true [cTieSmall, cTieBig] cTieSmall
    (by simp) (by simp [cTieSmall])

/-- C6: every score record produced by the scoring loop of
`find_winning_cluster_top5_method` satisfies
`penalized_score = top_5_mean · penalty_factor`, with `penalty_factor = 1`
for clusters of 5 or more members (in particular exactly 5) and
`0.95^(5 − size)` for smaller ones. -/
theorem penalized_score_is_top5_mean_times_penalty (u : Bool) (cands : List ClusterCand)
    (info : ClusterScoreInfo) (h : info ∈ clusterScores u cands) :
    info.penalized_score = info.top_5_mean * info.penalty_factor ∧
      (5 ≤ info.cluster_size → info.penalty_factor = 1) ∧
      (info.cluster_size < 5 →
        info.penalty_factor = (19/20 : ℚ) ^ (5 - info.cluster_size)) := by
  rcases List.mem_filterMap.mp h with ⟨c, _, hc⟩
  by_cases he : c.«matches».isEmpty
  · simp [he] at hc
  · have he' : c.«matches».isEmpty = false := by
      cases hb : c.«matches».isEmpty
      · rfl
      · exact absurd hb he
    simp only [he', Bool.false_eq_true, if_neg] at hc
    cases hc
    have hlen : (sortDescBy id (c.«matches».map (getMetric u))).length = c.«matches».length := by
      rw [(sortDescBy_perm id _).length_eq, List.length_map]
    have hcs : (scoreInfoOf u c).cluster_size = c.«matches».length := rfl
    refine ⟨rfl, ?_, ?_⟩
    · intro h5
      rw [hcs] at h5
      simp only [scoreInfoOf, hlen]
      rw [if_neg (by omega)]
    · intro h5
      rw [hcs] at h5
      simp only [scoreInfoOf, hlen]
      rw [if_pos (by omega)]

/-- A concrete 5-member cluster (so `penalty_factor = 1`). -/
def cFive : ClusterCand :=
  { type := "Ia"
    cluster_id := 1
    «matches» := [mTie10, mTie10, mTie95, mTie95, mTie95] }

/-- Witness for C6 at a concrete 5-member cluster —
the `clusterScores` membership hypothesis is discharged by computation. -/
theorem penalized_score_is_top5_mean_times_penalty_witness :
    (scoreInfoOf true cFive).penalized_score =
        (scoreInfoOf true cFive).top_5_mean * (scoreInfoOf true cFive).penalty_factor ∧
      (5 ≤ (scoreInfoOf true cFive).cluster_size →
        (scoreInfoOf true cFive).penalty_factor = 1) ∧
      ((scoreInfoOf true cFive).cluster_size < 5 →
        (scoreInfoOf true cFive).penalty_factor =
          (19/20 : ℚ) ^ (5 - (scoreInfoOf true cFive).cluster_size)) :=
  penalized_score_is_top5_mean_times_penalty true [cFive]
    (scoreInfoOf true cFive) (List.mem_filterMap.mpr ⟨cFive, by simp, rfl⟩)

/-! ## Subtype voting: `choose_subtype_weighted_voting`
(cosmological_clustering.py:501-598) -/

/-- Modelled from the spec: `get_best_metric_value` lives in
`snid_sage.shared.utils.math_utils`, a module that is not among the
sources; the spec (§4.5 step 6) and the call-site comment
(cosmological_clustering.py:530: "Use RLAP-Cos if available, otherwise
RLAP") describe it as returning `rlap_cos` when present, else `rlap`. -/
def get_best_metric_value (m : MatchT) : ℚ :=
  m.rlap_cos.getD (m.rlap.getD 0)

/-- A member record collected by `choose_subtype_weighted_voting`
(cosmological_clustering.py:534-538). -/
structure SubtypeMember where
  subtype : String
  metric_value : ℚ
  cluster_membership : ℚ
deriving DecidableEq

/-- Python `str.strip()`: drop leading and trailing whitespace.  (Written
on the character list rather than with `String.trim` so that it evaluates
inside `decide`.) -/
def pyStrip (s : String) : String :=
  ⟨((s.data.dropWhile Char.isWhitespace).reverse.dropWhile Char.isWhitespace).reverse⟩

/-- `subtype = match['template'].get('subtype', 'Unknown'); if not subtype
or subtype.strip() == '': subtype = 'Unknown'` (cosmological_clustering.py:526-528). -/
def normSubtype (s : Option String) : String :=
  let t := s.getD "Unknown"
  if t = "" ∨ pyStrip t = "" then "Unknown" else t

/-- The member-collection loop (cosmological_clustering.py:523-538):
keep match `i` when `gamma[i, k_star] >= resp_cut`. -/
def clusterMembers (kStar : ℕ) (ms : List MatchT) (gamma : ℕ → ℕ → ℚ) (respCut : ℚ) :
    List SubtypeMember :=
  ms.enum.filterMap fun p =>
    if respCut ≤ gamma p.1 kStar then
      some { subtype := normSubtype p.2.subtype
             metric_value := get_best_metric_value p.2
             cluster_membership := gamma p.1 kStar }
    else none

/-- Keys of a Python dict in insertion order: first occurrence of each
subtype, in member order (a `defaultdict` grouping preserves this). -/
def firstKeys : List String → List String
  | [] => []
  | s :: rest => s :: (firstKeys rest).filter (fun t => t ≠ s)

/-- Per-subtype score (cosmological_clustering.py:550-565): mean of the
top-5 metric values times the LINEAR penalty `len(top_values) / 5.0`. -/
def subtypeScore (members : List SubtypeMember) : ℚ :=
  let sortedMembers := sortDescBy (fun m : SubtypeMember => m.metric_value) members
  let topMembers := sortedMembers.take 5
  let topValues := topMembers.map (fun m : SubtypeMember => m.metric_value)
  let meanTop := topValues.sum / (topValues.length : ℚ)
  let pf : ℚ := (topValues.length : ℚ) / 5
  meanTop * pf

/-- The `subtype_scores` dict as an insertion-ordered association list. -/
def subtype_scores (members : List SubtypeMember) : List (String × ℚ) :=
  (firstKeys (members.map (fun m : SubtypeMember => m.subtype))).map fun s =>
    (s, subtypeScore (members.filter (fun m : SubtypeMember => m.subtype == s)))

/-- `choose_subtype_weighted_voting` (cosmological_clustering.py:501-598),
returning `(best_subtype, confidence, relative_margin_pct,
second_best_subtype)`. -/
def choose_subtype_weighted_voting (kStar : ℕ) (ms : List MatchT)
    (gamma : ℕ → ℕ → ℚ) (respCut : ℚ) : String × ℚ × ℚ × Option String :=
  let members := clusterMembers kStar ms gamma respCut
  if members.isEmpty then ("Unknown", 0, 0, none)
  else
    let scores := subtype_scores members
    if scores.isEmpty then ("Unknown", 0, 0, none)
    else
      let best := (firstMaxBy (fun p : String × ℚ => p.2) scores).getD ("Unknown", 0)
      let vals := scores.map (fun p : String × ℚ => p.2)
      let sortedVals := sortDescBy id vals
      let secondScore : Option ℚ := (sortedVals.drop 1).head?
      let margin := sortedVals.headD 0 - secondScore.getD 0
      let total := vals.sum
      let conf := if 0 < total then best.2 / total else 0
      let relMarginPct : ℚ :=
        match secondScore with
        | some s2 => if 0 < s2 then margin / s2 * 100 else 0
        | none => 0
      let secondBest : Option String :=
        match secondScore with
        | some s2 =>
          (scores.find? (fun p : String × ℚ => |p.2 - s2| < 1/1000000)).map
            (fun p : String × ℚ => p.1)
        | none => none
      (best.1, conf, relMarginPct, secondBest)

/-- C2 (amended): every subtype score produced by
`choose_subtype_weighted_voting` is the mean of the subtype's up-to-five
highest metric values multiplied by the LINEAR penalty
`min(size,5)/5` (1.0 at 5 members, 0.8 at 4, …) — not the cluster
selection rule `0.95^(5−size)`. -/
theorem subtype_scores_use_linear_penalty (members : List SubtypeMember)
    (s : String) (v : ℚ) (h : (s, v) ∈ subtype_scores members) :
    v = (let g := members.filter (fun m : SubtypeMember => m.subtype == s)
         let topValues := ((sortDescBy (fun m : SubtypeMember => m.metric_value) g).take 5).map
           (fun m : SubtypeMember => m.metric_value)
         (topValues.sum / (topValues.length : ℚ)) *
           ((min (g.length) 5 : ℚ) / 5)) := by
  rcases List.mem_map.mp h with ⟨key, _, hkey⟩
  obtain ⟨rfl, rfl⟩ : key = s ∧ subtypeScore
      (members.filter (fun m : SubtypeMember => m.subtype == key)) = v := by
    exact ⟨congrArg Prod.fst hkey, congrArg Prod.snd hkey⟩
  simp only [subtypeScore]
  have hlen : ∀ l : List SubtypeMember,
      ((sortDescBy (fun m : SubtypeMember => m.metric_value) l).take 5).length = min l.length 5 := by
    intro l
    rw [List.length_take, (sortDescBy_perm _ l).length_eq, Nat.min_comm]
  rw [List.length_map, hlen, Nat.cast_min]
  norm_num

/-- Four matches of one subtype and metric 10, all with responsibility 1. -/
def fourNormMatches : List MatchT := [mTie10, mTie10, mTie10, mTie10]

/-- Shared computation: the subtype scores of the winning-cluster members
built from `fourNormMatches`: the single subtype "norm" scores
`10 · (4/5) = 8`. -/
theorem subtype_scores_fourNorm :
    subtype_scores (clusterMembers 0 fourNormMatches (fun _ _ => 1) (1/10)) =
      [("norm", 8)] := by
  have hns : normSubtype (some "norm") = "norm" := by decide
  norm_num [subtype_scores, clusterMembers, fourNormMatches, mTie10, List.enum,
    List.enumFrom, hns, get_best_metric_value, firstKeys, subtypeScore,
    sortDescBy, insertDescBy, List.sum_cons, List.sum_nil]

/-- C2 counterexample: for a 4-member subtype with metric values 10 the
code scores `10 · (4/5) = 8`, while the claimed cluster-selection penalty
rule would give `10 · 0.95^(5−4) = 9.5`. -/
theorem subtype_score_differs_from_cluster_penalty :
    subtype_scores (clusterMembers 0 fourNormMatches (fun _ _ => 1) (1/10)) =
        [("norm", 8)] ∧
      (8 : ℚ) ≠ 10 * (19/20 : ℚ) ^ (5 - 4 : ℕ) :=
  ⟨subtype_scores_fourNorm, by norm_num⟩

/-- Witness for the amended C2 theorem at the concrete 4-member subtype. -/
theorem subtype_scores_use_linear_penalty_witness :
    (8 : ℚ) =
      (let g := (clusterMembers 0 fourNormMatches (fun _ _ => 1) (1/10)).filter
          (fun m : SubtypeMember => m.subtype == "norm")
       let topValues := ((sortDescBy (fun m : SubtypeMember => m.metric_value) g).take 5).map
         (fun m : SubtypeMember => m.metric_value)
       (topValues.sum / (topValues.length : ℚ)) *
         ((min (g.length) 5 : ℚ) / 5)) :=
  subtype_scores_use_linear_penalty
    (clusterMembers 0 fourNormMatches (fun _ _ => 1) (1/10)) "norm" 8
    (by rw [subtype_scores_fourNorm]; exact List.mem_singleton.mpr rfl)

/-! ## Redshift-span quality: `_perform_direct_gmm_clustering` vs
`_create_single_cluster_result` (cosmological_clustering.py:374-381, 453-459) -/

/-- The cluster-statistics record assembled per GMM component or by the
single-cluster fallback.  `np.std`, `rlap_range`, `metric_range` and the
top-5 placeholder fields are omitted: no claim touches them and the
standard deviation is an irrational square root. -/
structure ClusterInfoG where
  id : ℕ
  «matches» : List MatchT
  size : ℕ
  mean_rlap : ℚ
  mean_metric : ℚ
  weighted_mean_redshift : ℚ
  weighted_redshift_uncertainty : ℚ
  redshift_span : ℚ
  redshift_quality : String
  cluster_method : String
deriving DecidableEq

/-- `np.max` over a nonempty list (the sole use sites guarantee nonemptiness). -/
def npMax : List ℚ → ℚ
  | [] => 0
  | x :: xs => xs.foldl max x

/-- `np.min` over a nonempty list. -/
def npMin : List ℚ → ℚ
  | [] => 0
  | x :: xs => xs.foldl min x

/-- `np.mean` as rational sum/length (`0` on the empty list, which the
call sites never pass). -/
def npMean (l : List ℚ) : ℚ := l.sum / (l.length : ℚ)

/-- One iteration of the cluster-info loop of
`_perform_direct_gmm_clustering` (cosmological_clustering.py:357-412):
span, the FOUR-tier quality classification, and the aggregate fields.
`calculate_inverse_variance_weighted_redshift_from_matches` delegates to
`snid_sage.shared.utils.math_utils.calculate_hybrid_weighted_redshift`,
which is not among the sources, so the weighted redshift is abstracted as
the function parameter `wz`. -/
def gmmClusterInfo (qt : ℚ) (cid : ℕ) (cms : List MatchT) (useRlapCos : Bool)
    (wz : List MatchT → ℚ × ℚ) : ClusterInfoG :=
  let zs := cms.map (fun m : MatchT => m.redshift)
  let span := npMax zs - npMin zs
  let quality :=
    if span ≤ qt then "tight"
    else if span ≤ qt * 2 then "moderate"
    else if span ≤ qt * 4 then "loose"
    else "very_loose"
  let wzr := wz cms
  { id := cid
    «matches» := cms
    size := cms.length
    mean_rlap := npMean (cms.map (fun m : MatchT => m.rlap.getD 0))
    mean_metric := npMean (cms.map (getMetric useRlapCos))
    weighted_mean_redshift := wzr.1
    weighted_redshift_uncertainty := wzr.2
    redshift_span := span
    redshift_quality := quality
    cluster_method := "direct_gmm" }

/-- `_create_single_cluster_result` (cosmological_clustering.py:438-498):
note the THREE-tier quality classification — there is no `very_loose`
branch on this path. -/
def singleClusterInfo (qt : ℚ) (tms : List MatchT) (useRlapCos : Bool)
    (wz : List MatchT → ℚ × ℚ) : ClusterInfoG :=
  let zs := tms.map (fun m : MatchT => m.redshift)
  let span := if 1 < zs.length then npMax zs - npMin zs else 0
  let quality :=
    if span ≤ qt then "tight"
    else if span ≤ qt * 2 then "moderate"
    else "loose"
  let wzr := wz tms
  { id := 0
    «matches» := tms
    size := tms.length
    mean_rlap := npMean (tms.map (fun m : MatchT => m.rlap.getD 0))
    mean_metric := npMean (tms.map (getMetric useRlapCos))
    weighted_mean_redshift := wzr.1
    weighted_redshift_uncertainty := wzr.2
    redshift_span := span
    redshift_quality := quality
    cluster_method := "single_cluster" }

/-- The redshift-quality rule as the spec states it (spec §4.5 step 1d):
tight if span ≤ q, moderate if ≤ 2q, loose if ≤ 4q, else very_loose. -/
def specRedshiftQuality (q span : ℚ) : String :=
  if span ≤ q then "tight"
  else if span ≤ 2 * q then "moderate"
  else if span ≤ 4 * q then "loose"
  else "very_loose"

theorem foldl_max_ge (x : ℚ) : ∀ xs : List ℚ, x ≤ xs.foldl max x
  | [] => le_refl x
  | y :: ys => le_trans (le_max_left x y) (foldl_max_ge (max x y) ys)

theorem foldl_min_le (x : ℚ) : ∀ xs : List ℚ, xs.foldl min x ≤ x
  | [] => le_refl x
  | y :: ys => le_trans (foldl_min_le (min x y) ys) (min_le_left x y)

theorem npMin_le_npMax : ∀ {l : List ℚ}, l ≠ [] → npMin l ≤ npMax l := by
  intro l h
  cases l with
  | nil => exact absurd rfl h
  | cons x xs => exact le_trans (foldl_min_le x xs) (foldl_max_ge x xs)

/-- The four-tier classifier of the GMM path is exactly the spec's rule. -/
theorem four_tier_eq (q s : ℚ) :
    (if s ≤ q then "tight"
     else if s ≤ q * 2 then "moderate"
     else if s ≤ q * 4 then "loose"
     else "very_loose") = specRedshiftQuality q s := by
  simp only [specRedshiftQuality]
  split_ifs <;> first | rfl | (exfalso; linarith)

/-- The three-tier classifier of the single-cluster fallback agrees with
the spec's rule exactly on spans `≤ 4q` (spans are nonnegative). -/
theorem three_tier_iff (q s : ℚ) (hs : 0 ≤ s) :
    ((if s ≤ q then "tight" else if s ≤ q * 2 then "moderate" else "loose") =
        specRedshiftQuality q s) ↔ s ≤ 4 * q := by
  simp only [specRedshiftQuality]
  split_ifs <;>
    first
    | exact iff_of_true rfl (by linarith)
    | exact iff_of_false (by decide) (by intro hc; linarith)

/-- C3 (amended): GMM-path clusters follow the spec's four-tier rule
exactly; single-cluster-fallback clusters agree with it precisely when
their span is at most `4q` — above that the fallback path still reports
`loose` (its classifier has no `very_loose` tier). -/
theorem redshift_quality_classification (qt : ℚ) (cid : ℕ) (cms tms : List MatchT)
    (u : Bool) (wz : List MatchT → ℚ × ℚ) :
    (gmmClusterInfo qt cid cms u wz).redshift_quality =
        specRedshiftQuality qt (gmmClusterInfo qt cid cms u wz).redshift_span ∧
      ((singleClusterInfo qt tms u wz).redshift_quality =
          specRedshiftQuality qt (singleClusterInfo qt tms u wz).redshift_span ↔
        (singleClusterInfo qt tms u wz).redshift_span ≤ 4 * qt) := by
  constructor
  · exact four_tier_eq qt
      (npMax (cms.map (fun m : MatchT => m.redshift)) -
        npMin (cms.map (fun m : MatchT => m.redshift)))
  · have hs : 0 ≤ (singleClusterInfo qt tms u wz).redshift_span := by
      show (0 : ℚ) ≤ if 1 < (tms.map (fun m : MatchT => m.redshift)).length then
          npMax (tms.map (fun m : MatchT => m.redshift)) -
            npMin (tms.map (fun m : MatchT => m.redshift)) else 0
      split_ifs with hl
      · have hne : tms.map (fun m : MatchT => m.redshift) ≠ [] := by
          intro hcontra
          rw [hcontra] at hl
          exact absurd hl (by decide)
        linarith [npMin_le_npMax hne]
      · exact le_refl 0
    exact three_tier_iff qt _ hs

/-- Matches with redshifts 0 and 0.1 used in the C3 counterexample. -/
def mZ0 : MatchT :=
  { redshift := 0
    redshift_error := 1/1000
    rlap := some 6
    rlap_cos := some 6
    subtype := some "norm" }

def mZ01 : MatchT :=
  { redshift := 1/10
    redshift_error := 1/1000
    rlap := some 6
    rlap_cos := some 6
    subtype := some "norm" }

/-- C3 counterexample: a single-cluster-fallback cluster with redshift
span 0.1 and quality threshold q = 0.02 (so span > 4q) is labelled
`loose` by the code, while the claimed rule demands `very_loose`. -/
theorem single_cluster_quality_not_four_tier :
    (singleClusterInfo (1/50) [mZ0, mZ01] true (fun _ => (0, 0))).redshift_span = 1/10 ∧
      ¬((1 : ℚ)/10 ≤ 4 * (1/50)) ∧
      (singleClusterInfo (1/50) [mZ0, mZ01] true (fun _ => (0, 0))).redshift_quality = "loose" ∧
      specRedshiftQuality (1/50) (1/10) = "very_loose" := by
  refine ⟨?_, by norm_num, ?_, ?_⟩
  · norm_num [singleClusterInfo, npMax, npMin, mZ0, mZ01]
  · norm_num [singleClusterInfo, npMax, npMin, mZ0, mZ01]
  · norm_num [specRedshiftQuality]

/-! ## Preprocessing: `snid_sage/snid/preprocessing.py` -/

/-- Python 3 `round` to an integer: round-half-to-even. -/
def pyRound (x : ℚ) : ℤ :=
  let f := ⌊x⌋
  let r := x - (f : ℚ)
  if r < 1/2 then f
  else if 1/2 < r then f + 1
  else if f % 2 = 0 then f else f + 1

/-- Python `int(x)`: truncation toward zero. -/
def pyInt (x : ℚ) : ℤ :=
  if 0 ≤ x then ⌊x⌋ else -⌊-x⌋

/-- `apodize` (preprocessing.py:236-271): raised-cosine taper over the
first and last `ns` samples of the valid region `[n1, n2]`.  The ramp
value `0.5*(1 - cos(pi*k/(ns-1)))` is transcendental and enters as the
parameter `cosRamp ns k`; the source's `ns == 1` special case
(`ramp = [0.0]`) is the first branch of `ramp` below.  `n1`, `n2` are the
nonnegative edge indices the callers pass (so Python's `0 <= n1` guard is
implicit in the type). -/
def apodize (cosRamp : ℕ → ℕ → ℚ) (arr : List ℚ) (n1 n2 : ℕ) (percent : ℚ) : List ℚ :=
  if ¬(n1 ≤ n2 ∧ n2 < arr.length) then arr
  else if percent ≤ 0 then arr
  else
    let validLen := n2 - n1 + 1
    let ns0 := pyRound ((validLen : ℚ) * percent / 100)
    let ns := min ns0.toNat (validLen / 2)
    if ns < 1 then arr
    else
      let ramp : ℕ → ℚ := fun k => if ns = 1 then 0 else cosRamp ns k
      if arr.length < n1 + ns ∨ ((n2 : ℤ) - (ns : ℤ) + 1 < 0) then arr
      else arr.mapIdx fun i a =>
        if n1 ≤ i ∧ i < n1 + ns then a * ramp (i - n1)
        else if n2 + 1 - ns ≤ i ∧ i ≤ n2 then a * ramp (n2 - i)
        else a

/-- C8: `apodize` with `percent = 0` is the identity on every array and
valid edge pair, for any cosine ramp. -/
theorem apodize_percent_zero (cosRamp : ℕ → ℕ → ℚ) (arr : List ℚ) (n1 n2 : ℕ)
    (h1 : n1 ≤ n2) (h2 : n2 < arr.length) :
    apodize cosRamp arr n1 n2 0 = arr := by
  rw [apodize, if_neg (not_not_intro ⟨h1, h2⟩), if_pos le_rfl]

/-- Witness for C8 at a concrete array and edge pair. -/
theorem apodize_percent_zero_witness :
    apodize (fun _ _ => 1/2) [5, 7, 11] 0 2 0 = [5, 7, 11] :=
  apodize_percent_zero (fun _ _ => 1/2) [5, 7, 11] 0 2 (by decide) (by decide)

/-! ### Savitzky-Golay filtering (preprocessing.py:63-189)

`scipy.signal.savgol_filter` computes, for each output position, the
least-squares polynomial fit of degree `polyorder` over a window of
`window_length` samples, evaluated at that position (default mode
`'interp'`: the first and last `window_length // 2` positions are
replaced by a polynomial fit over the first/last `window_length`
samples).  The least-squares fit is modelled by solving the normal
equations over `ℚ` with Gaussian elimination — on the full-rank
Vandermonde systems that arise here this has the same unique solution as
scipy's `lstsq`. -/

def findPivotRow : List (List ℚ) → Option (List ℚ × List (List ℚ))
  | [] => none
  | r :: rs =>
    if r.headD 0 ≠ 0 then some (r, rs)
    else
      match findPivotRow rs with
      | none => none
      | some (p, rest) => some (p, r :: rest)

def elimRow (p r : List ℚ) : List ℚ :=
  let factor := r.headD 0 / p.headD 0
  (List.zipWith (fun a b => a - factor * b) r p).tail

/-- Gaussian elimination with back substitution on an augmented matrix
(`n` variables, rows of length `n+1`); `none` on a singular system. -/
def gaussSolve : ℕ → List (List ℚ) → Option (List ℚ)
  | 0, _ => some []
  | n+1, rows =>
    match findPivotRow rows with
    | none => none
    | some (p, rest) =>
      match gaussSolve n (rest.map (elimRow p)) with
      | none => none
      | some xs =>
        let x0 := (p.getD (n+1) 0 -
          (List.zipWith (fun c x => c * x) (p.tail.take n) xs).sum) / p.headD 0
        some (x0 :: xs)

/-- Least-squares polynomial fit of degree `d` through `pts`, evaluated
at `t` (normal equations `AᵀA c = Aᵀ y`). -/
def polyfitEval (pts : List (ℚ × ℚ)) (d : ℕ) (t : ℚ) : ℚ :=
  let rows := (List.range (d+1)).map fun j =>
    ((List.range (d+1)).map fun k => (pts.map fun p => p.1 ^ (j+k)).sum) ++
      [(pts.map fun p => p.1 ^ j * p.2).sum]
  match gaussSolve (d+1) rows with
  | none => 0
  | some coeffs => (coeffs.enum.map (fun p => p.2 * t ^ p.1)).sum

/-- `scipy.signal.savgol_filter(ys, w, d)` with the default
`mode='interp'` (valid for `d < w ≤ len ys`).  For even `w` the fit
position is scipy's default `w/2 - 0.5`; the repository only ever reaches
odd `w` because `savgol_filter_fixed` makes the window odd before
clamping. -/
def scipySavgol (ys : List ℚ) (w d : ℕ) : List ℚ :=
  let n := ys.length
  let halflen := w / 2
  let headPts := (ys.take w).enum.map (fun p => ((p.1 : ℚ), p.2))
  let tailPts := (ys.drop (n - w)).enum.map (fun p => (((n - w + p.1 : ℕ) : ℚ), p.2))
  (List.range n).map fun i =>
    if i < halflen then polyfitEval headPts d (i : ℚ)
    else if n - halflen ≤ i then polyfitEval tailPts d (i : ℚ)
    else
      let windowPts := ((ys.drop (i - halflen)).take w).enum.map
        (fun p => ((p.1 : ℚ), p.2))
      polyfitEval windowPts d
        (if w % 2 = 1 then (halflen : ℚ) else (halflen : ℚ) - 1/2)

/-- `savgol_filter_fixed` (preprocessing.py:63-103): window below 3 → no
filtering; even windows incremented; window clamped to the data length;
polyorder clamped to window−1; then scipy's filter IS applied.  The
`try/except` around the scipy call cannot fire: after the clamps
`polyorder < window_length ≤ len(data)` always holds, which is exactly
what scipy validates for mode `'interp'`. -/
def savgol_filter_fixed (data : List ℚ) (window_length : ℕ) (polyorder : ℕ) : List ℚ :=
  if window_length < 3 then data
  else
    let w1 := if window_length % 2 = 0 then window_length + 1 else window_length
    let w2 := min w1 data.length
    if w2 < 3 then data
    else scipySavgol data w2 (min polyorder (w2 - 1))

/-- `np.mean(np.diff(wave))`. -/
def avgDiff (wave : List ℚ) : ℚ :=
  npMean (List.zipWith (fun a b => b - a) wave wave.tail)

/-- Python exceptions surfaced by the embedded functions. -/
inductive PyExc
  | typeError (msg : String)
  | valueError (msg : String)
  | fileNotFound (msg : String)
  | other (msg : String)
deriving DecidableEq

/-- `savgol_filter_wavelength` (preprocessing.py:106-165): derive the
pixel window from the requested FWHM (Python float `2.35` is the literal
`47/20`), then clamp exactly like the fixed-window variant.

The conversion `int(2*sigma_angstrom/avg_dwl)` can raise: when the wave
array has fewer than 2 samples, `np.diff(wave)` is empty and
`np.mean` of it is `nan` (a warning, not a raise), and `int(nan)` raises
`ValueError`; when the mean wavelength spacing is exactly 0 (e.g. a
constant wave array), the float quotient is `±inf` and `int(inf)` raises
`OverflowError` (modelled by the generic `PyExc.other`). -/
def savgol_filter_wavelength (wave data : List ℚ) (fwhm : ℚ) (polyorder : ℕ) :
    Except PyExc (List ℚ) :=
  if data.length ≠ wave.length then
    .error (.valueError "data and wave must have the same shape")
  else if fwhm ≤ 0 then .ok data
  else if wave.length < 2 then
    .error (.valueError "cannot convert float NaN to integer")
  else if avgDiff wave = 0 then
    .error (.other "OverflowError: cannot convert float infinity to integer")
  else
    let avg_dwl := avgDiff wave
    let sigma := fwhm / (47/20)
    let wl0 : ℤ := max 3 (pyInt (2 * sigma / avg_dwl))
    let wl1 : ℤ := if wl0 % 2 = 0 then wl0 + 1 else wl0
    let w2 := min wl1.toNat data.length
    if w2 < 3 then .ok data
    else .ok (scipySavgol data w2 (min polyorder (w2 - 1)))

unseal Rat.mul Rat.add Rat.sub Rat.inv in
/-- C4 counterexample: for the 5-sample impulse `[0,0,1,0,0]` and the
requested window 11 (which exceeds the data length), the filter is NOT a
no-op: the window is clamped to 5 and the order-3 fit turns the impulse
into the classic Savitzky-Golay response `[-3,12,17,12,-3]/35`. -/
theorem savgol_window_exceeding_data_not_noop :
    ([(0:ℚ), 0, 1, 0, 0].length < 11) ∧
      savgol_filter_fixed [0, 0, 1, 0, 0] 11 3 =
        [-3/35, 12/35, 17/35, 12/35, -3/35] ∧
      savgol_filter_fixed [0, 0, 1, 0, 0] 11 3 ≠ [0, 0, 1, 0, 0] := by
  decide

/-- C4 (amended): when the requested window exceeds the data length the
window is clamped to the data length (after being made odd) and the
polynomial order to window−1, and the filter still runs; the step is
guaranteed to return the input unchanged only when the data has fewer
than 3 samples (or the request is below 3). -/
theorem savgol_filter_fixed_noop_small (data : List ℚ) (window_length polyorder : ℕ)
    (h : data.length < 3 ∨ window_length < 3) :
    savgol_filter_fixed data window_length polyorder = data := by
  simp only [savgol_filter_fixed]
  rcases h with h | h
  · split_ifs <;> first | rfl | omega
  · rw [if_pos h]

/-- Witness for the amended C4 theorem: a 2-sample array is returned
unchanged even for a huge window request. -/
theorem savgol_filter_fixed_noop_small_witness :
    savgol_filter_fixed [4, 9] 11 3 = [4, 9] :=
  savgol_filter_fixed_noop_small [4, 9] 11 3 (by decide)

/-! ### `flatten_spectrum` (preprocessing.py:646-694) -/

/-- The positional parameters of `log_rebin` (preprocessing.py:276-279). -/
def log_rebin_params : List String := ["wave", "fsrc"]

/-- Python call binding: a keyword argument whose name is not among the
callee's parameters raises `TypeError` before the body runs. -/
def bindKwargs (params : List String) (kwargs : List String) : Except PyExc Unit :=
  if kwargs.all (fun k => params.contains k) then .ok ()
  else .error (.typeError "got an unexpected keyword argument")

/-- `flatten_spectrum` (preprocessing.py:646-694): apodize, optionally
Savitzky-Golay filter, then call
`log_rebin(wave, flux, num_points=num_points)` — a call that cannot bind
because `log_rebin`'s signature has no `num_points` parameter.  The
continuum fit and result-dict construction after that call are
unreachable. -/
def flatten_spectrum (cosRamp : ℕ → ℕ → ℚ) (wave flux : List ℚ)
    (apodizePercent : ℚ) (medianFilterType : String) (medianFilterValue : ℚ)
    (numPoints : ℕ) : Except PyExc (List ℚ × List ℚ) := do
  let flux1 :=
    if 0 < apodizePercent then
      let nAp := (pyInt ((flux.length : ℚ) * apodizePercent / 100)).toNat
      apodize cosRamp flux nAp nAp apodizePercent
    else flux
  let flux2 ←
    if medianFilterType ≠ "none" ∧ 0 < medianFilterValue then
      if medianFilterType = "pixel" then
        pure (savgol_filter_fixed flux1 (max 3 (pyInt medianFilterValue).toNat) 3)
      else if medianFilterType = "angstrom" then
        savgol_filter_wavelength wave flux1 medianFilterValue 3
      else pure flux1
    else pure flux1
  let _ ← bindKwargs log_rebin_params ["num_points"]
  -- unreachable: `log_rebin`, `fit_continuum` and the result dict
  .error (.other ("unreachable " ++ toString flux2.length ++ toString numPoints))

theorem apodize_length (cosRamp : ℕ → ℕ → ℚ) (arr : List ℚ) (n1 n2 : ℕ) (percent : ℚ) :
    (apodize cosRamp arr n1 n2 percent).length = arr.length := by
  simp only [apodize]
  split_ifs <;> simp [List.length_mapIdx]

/-- The Å-based filter does not raise when the shapes agree and the
window derivation is well defined: either the filter is disabled
(`fwhm ≤ 0`), or the wave array has at least 2 samples with a nonzero
mean spacing. -/
theorem savgol_filter_wavelength_ok (wave data : List ℚ) (fwhm : ℚ) (p : ℕ)
    (hlen : data.length = wave.length)
    (hcase : fwhm ≤ 0 ∨ (2 ≤ wave.length ∧ avgDiff wave ≠ 0)) :
    ∃ v, savgol_filter_wavelength wave data fwhm p = .ok v := by
  rw [savgol_filter_wavelength, if_neg (not_not_intro hlen)]
  by_cases hf : fwhm ≤ 0
  · rw [if_pos hf]
    exact ⟨data, rfl⟩
  · rcases hcase with hc | ⟨hlen2, havg⟩
    · exact absurd hc hf
    · rw [if_neg hf, if_neg (by omega), if_neg havg]
      dsimp only
      split_ifs <;> exact ⟨_, rfl⟩

/-- C9: `flatten_spectrum` always raises `TypeError` and never returns
(whenever control reaches the `log_rebin` call, i.e. unless the optional
Å-based filter itself raises first: `ValueError` on mismatched array
shapes, `ValueError` from `int(nan)` on a wave array with fewer than 2
samples, or `OverflowError` from `int(inf)` on a zero mean spacing).
With the default `median_filter_type = "none"` the hypothesis is vacuous
and the `TypeError` is unconditional. -/
theorem flatten_spectrum_raises_typeError (cosRamp : ℕ → ℕ → ℚ) (wave flux : List ℚ)
    (apodizePercent : ℚ) (medianFilterType : String) (medianFilterValue : ℚ)
    (numPoints : ℕ)
    (h : medianFilterType = "angstrom" ∧ 0 < medianFilterValue →
      flux.length = wave.length ∧ 2 ≤ wave.length ∧ avgDiff wave ≠ 0) :
    flatten_spectrum cosRamp wave flux apodizePercent medianFilterType
        medianFilterValue numPoints =
      .error (.typeError "got an unexpected keyword argument") := by
  have hbind : bindKwargs log_rebin_params ["num_points"] =
      .error (.typeError "got an unexpected keyword argument") := by
    rfl
  rw [flatten_spectrum]
  by_cases hmf : medianFilterType ≠ "none" ∧ 0 < medianFilterValue
  · rw [if_pos hmf]
    by_cases hp : medianFilterType = "pixel"
    · rw [if_pos hp]
      rfl
    · rw [if_neg hp]
      by_cases ha : medianFilterType = "angstrom"
      · rw [if_pos ha]
        obtain ⟨hlen0, hw2, hd⟩ := h ⟨ha, hmf.2⟩
        have hlen : (if 0 < apodizePercent then
            apodize cosRamp flux ((pyInt ((flux.length : ℚ) * apodizePercent / 100)).toNat)
              ((pyInt ((flux.length : ℚ) * apodizePercent / 100)).toNat) apodizePercent
          else flux).length = wave.length := by
          split_ifs
          · rw [apodize_length]; exact hlen0
          · exact hlen0
        obtain ⟨v, hv⟩ := savgol_filter_wavelength_ok wave _ medianFilterValue 3 hlen
          (Or.inr ⟨hw2, hd⟩)
        rw [hv]
        rfl
      · rw [if_neg ha]
        rfl
  · rw [if_neg hmf]
    rfl

/-- Witness for C9 at a concrete spectrum with default filter options. -/
theorem flatten_spectrum_raises_typeError_witness :
    flatten_spectrum (fun _ _ => 1/2) [1, 2, 3] [5, 6, 7] 5 "none" 0 1024 =
      .error (.typeError "got an unexpected keyword argument") :=
  flatten_spectrum_raises_typeError (fun _ _ => 1/2) [1, 2, 3] [5, 6, 7] 5 "none" 0 1024
    (by intro hc; exact absurd hc.1 (by decide))

/-! ### `fit_continuum_spline` (preprocessing.py:474-598)

`log10` and `10**x` are transcendental; they enter as the parameters `lg`
and `pw`.  NumPy float division by zero yields `inf`/`nan` without
raising; here `ℚ` division by zero yields `0` — also without raising, and
no claim depends on those branches. -/

/-- `flux[i]`, with out-of-range access defaulting to 0 (the loops below
stay in range). -/
def fluxGet (flux : List ℚ) (i : ℕ) : ℚ := flux.getD i 0

/-- The left chop loop (preprocessing.py:505-510): `l1 = 0; nuked = 0;
while l1 < n-1 and (flux[l1] <= 0 or nuked < 1): if flux[l1] > 0:
nuked += 1; l1 += 1`.  The fuel argument (`n`) strictly exceeds the
number of loop iterations (`l1` grows by 1 each pass and stops at
`n-1`), so the fuel-exhaustion fallback is unreachable. -/
def chopLeftAux (flux : List ℚ) (n : ℕ) : ℕ → ℕ → ℕ → ℕ
  | 0, l1, _ => l1
  | fuel+1, l1, nuked =>
    if l1 < n - 1 ∧ (fluxGet flux l1 ≤ 0 ∨ nuked < 1) then
      chopLeftAux flux n fuel (l1+1) (if 0 < fluxGet flux l1 then nuked+1 else nuked)
    else l1

def chopLeft (flux : List ℚ) : ℕ := chopLeftAux flux flux.length flux.length 0 0

/-- The right chop loop (preprocessing.py:512-517). -/
def chopRightAux (flux : List ℚ) : ℕ → ℕ → ℕ → ℕ
  | 0, l2, _ => l2
  | fuel+1, l2, nuked =>
    if 1 < l2 ∧ (fluxGet flux l2 ≤ 0 ∨ nuked < 1) then
      chopRightAux flux fuel (l2-1) (if 0 < fluxGet flux l2 then nuked+1 else nuked)
    else l2

def chopRight (flux : List ℚ) : ℕ := chopRightAux flux flux.length (flux.length - 1) 0

/-- State of the knot-placement loop (preprocessing.py:531-543). -/
structure KnotState where
  nave : ℕ
  sum_x : ℚ
  sum_y : ℚ
  knots : List (ℚ × ℚ)

/-- One iteration of the knot-placement loop: accumulate interior
positive-flux pixels, and close a knot whenever `(i - istart) % kwidth
== 0` with a nonempty accumulator. -/
def knotStep (flux : List ℚ) (lg : ℚ → ℚ) (l1 l2 : ℕ) (istart : ℤ) (kwidth : ℕ)
    (st : KnotState) (i : ℕ) : KnotState :=
  let st1 :=
    if l1 < i ∧ i < l2 ∧ 0 < fluxGet flux i then
      { st with nave := st.nave + 1
                sum_x := st.sum_x + ((i : ℚ) - 1/2)
                sum_y := st.sum_y + lg (fluxGet flux i) }
    else st
  if ((i : ℤ) - istart) % (kwidth : ℤ) = 0 ∧ 0 < st1.nave then
    { nave := 0
      sum_x := 0
      sum_y := 0
      knots := st1.knots ++ [(st1.sum_x / (st1.nave : ℚ), st1.sum_y / (st1.nave : ℚ))] }
  else st1

/-- The `(xknot, yknot)` pairs collected by the loop
(preprocessing.py:522-543), with `kwidth = n // knotnum` and
`istart = (izoff % kwidth) - kwidth` when `izoff > 0` else 0. -/
def knotsOf (flux : List ℚ) (lg : ℚ → ℚ) (knotnum : ℕ) (izoff : ℤ) : List (ℚ × ℚ) :=
  let n := flux.length
  let l1 := chopLeft flux
  let l2 := chopRight flux
  let kwidth := n / knotnum
  let istart : ℤ := if 0 < izoff then (izoff % (kwidth : ℤ)) - (kwidth : ℤ) else 0
  ((List.range n).foldl (knotStep flux lg l1 l2 istart kwidth)
    { nave := 0, sum_x := 0, sum_y := 0, knots := [] }).knots

/-- Forward elimination of the tridiagonal spline system
(preprocessing.py:562-568): returns the `u` and `z` arrays. -/
def forwardUZ (A C rhs : List ℚ) : List ℚ × List ℚ :=
  let m := rhs.length
  if m = 0 then ([], [])
  else
    (List.range (m-1)).foldl
      (fun (uz : List ℚ × List ℚ) (i0 : ℕ) =>
        let i := i0 + 1
        let li := C.getD (i-1) 0 / uz.1.getD (i-1) 0
        (uz.1 ++ [A.getD i 0 - li * C.getD (i-1) 0],
         uz.2 ++ [rhs.getD i 0 - li * uz.2.getD (i-1) 0]))
      ([A.getD 0 0], [rhs.getD 0 0])

/-- Back substitution (preprocessing.py:570-574): `midValAux u z C m m i`
is `y2[i+1]`; recursion from the last row downwards with fuel `m`
(fuel exhaustion is unreachable since `i` reaches `m-1` within `m`
steps). -/
def midValAux (u z C : List ℚ) (m : ℕ) : ℕ → ℕ → ℚ
  | 0, i => z.getD i 0 / u.getD i 0
  | fuel+1, i =>
    if m - 1 ≤ i then z.getD i 0 / u.getD i 0
    else (z.getD i 0 - C.getD i 0 * midValAux u z C m fuel (i+1)) / u.getD i 0

/-- `np.searchsorted(xs, v)` (side `'left'`): for a sorted `xs`, the
number of elements strictly below `v`. -/
def searchsortedLeft (xs : List ℚ) (v : ℚ) : ℕ :=
  (xs.filter (fun a => decide (a < v))).length

/-- `fit_continuum_spline` (preprocessing.py:474-598). -/
def fit_continuum_spline (lg pw : ℚ → ℚ) (flux : List ℚ) (knotnum : ℕ) (izoff : ℤ) :
    List ℚ × List ℚ :=
  let n := flux.length
  if n < 10 ∨ knotnum < 3 then (List.replicate n 0, List.replicate n 1)
  else
    let l1 := chopLeft flux
    let l2 := chopRight flux
    if (l2 : ℤ) - (l1 : ℤ) < 3 * (knotnum : ℤ) then
      (List.replicate n 0, List.replicate n 1)
    else
      let knots := knotsOf flux lg knotnum izoff
      let nk := knots.length
      if nk < 3 then (List.replicate n 0, List.replicate n 1)
      else
        let xknot := knots.map Prod.fst
        let yknot := knots.map Prod.snd
        let h := List.zipWith (fun a b => b - a) xknot xknot.tail
        let m := nk - 2
        let rhs := (List.range m).map fun j =>
          6 * ((yknot.getD (j+2) 0 - yknot.getD (j+1) 0) / h.getD (j+1) 0
             - (yknot.getD (j+1) 0 - yknot.getD j 0) / h.getD j 0)
        let A := (List.range m).map fun j => 2 * (h.getD j 0 + h.getD (j+1) 0)
        let C := (List.range m).map fun j => h.getD (j+1) 0
        let uz := forwardUZ A C rhs
        let y2 : ℕ → ℚ := fun idx =>
          if idx = 0 ∨ nk - 1 ≤ idx then 0
          else midValAux uz.1 uz.2 C m m (idx - 1)
        let cont := (List.range n).map fun j =>
          let xp := (j : ℚ) - 1/2
          let idx := (min ((searchsortedLeft xknot xp : ℤ) - 1) ((nk : ℤ) - 2)).toNat
          let hi := xknot.getD (idx+1) 0 - xknot.getD idx 0
          let a := (xknot.getD (idx+1) 0 - xp) / hi
          let b := (xp - xknot.getD idx 0) / hi
          pw (a * yknot.getD idx 0 + b * yknot.getD (idx+1) 0 +
            ((a^3 - a) * y2 idx + (b^3 - b) * y2 (idx+1)) * hi^2 / 6)
        let flat := (List.range n).map fun i =>
          if 0 < fluxGet flux i ∧ 0 < cont.getD i 0 then
            fluxGet flux i / cont.getD i 0 - 1
          else 0
        (flat, cont)

/-- C10: `fit_continuum_spline` never signals an error; on every guard —
fewer than 10 samples, fewer than 3 knots requested, usable range after
chopping shorter than `3·knotnum`, or fewer than 3 knots placed — it
silently returns `flat ≡ 0` and `continuum ≡ 1`. -/
theorem fit_continuum_spline_guard_returns_trivial (lg pw : ℚ → ℚ) (flux : List ℚ)
    (knotnum : ℕ) (izoff : ℤ)
    (h : flux.length < 10 ∨ knotnum < 3 ∨
      (chopRight flux : ℤ) - (chopLeft flux : ℤ) < 3 * (knotnum : ℤ) ∨
      (knotsOf flux lg knotnum izoff).length < 3) :
    fit_continuum_spline lg pw flux knotnum izoff =
      (List.replicate flux.length 0, List.replicate flux.length 1) := by
  simp only [fit_continuum_spline]
  split_ifs with h1 h2 h3
  · rfl
  · rfl
  · rfl
  · exfalso
    rcases h with h | h | h | h
    · exact h1 (Or.inl h)
    · exact h1 (Or.inr h)
    · exact h2 h
    · exact h3 h

/-- Witness for C10 at a 5-sample flux array (below the 10-sample guard). -/
theorem fit_continuum_spline_guard_returns_trivial_witness :
    fit_continuum_spline id id [1, 1, 1, 1, 1] 13 0 =
      (List.replicate 5 0, List.replicate 5 1) :=
  fit_continuum_spline_guard_returns_trivial id id [1, 1, 1, 1, 1] 13 0
    (Or.inl (by decide))

/-! ### `log_rebin` (preprocessing.py:276-343)

The grid maps are transcendental: the coordinate map
`λ ↦ ln(λ/W0)/DWLOG + 1` (strictly monotone, since `ln` is strictly
monotone and `DWLOG > 0`), the bin centers `W0·exp((i+0.5)·DWLOG)` and
the bin widths `Δλ(i)`.  They enter the embedding as the parameters `ρ`,
`binCenter` and `binWidth`; the zero-outside-coverage claim needs only
the monotonicity of `ρ`. -/

/-- The linear-λ pixel edges `s[k]` (preprocessing.py:309-313): midpoints
of neighbouring samples, with the first/last edge extrapolated. -/
def pixelEdge (wave : List ℚ) (k : ℕ) : ℚ :=
  let n := wave.length
  if k = 0 then 3/2 * wave.getD 0 0 - 1/2 * wave.getD 1 0
  else if k < n then (wave.getD (k-1) 0 + wave.getD k 0) / 2
  else 3/2 * wave.getD (n-1) 0 - 1/2 * wave.getD (n-2) 0

/-- The flux that source pixel `l` deposits into the 1-indexed
destination bin `i` (the body of the double loop,
preprocessing.py:319-336): zero unless `max(1,⌊s0log⌋) ≤ i ≤
min(nlog,⌊s1log⌋)` and the overlap `alen` is positive, else
`fsrc[l]·(alen/(s1log−s0log))·Δλ`. -/
def pixelContrib (ρ : ℚ → ℚ) (wave fsrc : List ℚ) (nlog l : ℕ) (i : ℤ) : ℚ :=
  let s0 := ρ (pixelEdge wave l)
  let s1 := ρ (pixelEdge wave (l+1))
  let dl := pixelEdge wave (l+1) - pixelEdge wave l
  let i0 : ℤ := max 1 ⌊s0⌋
  let i1 : ℤ := min (nlog : ℤ) ⌊s1⌋
  if i0 ≤ i ∧ i ≤ i1 then
    let alen := min s1 ((i : ℚ) + 1) - max s0 (i : ℚ)
    if alen ≤ 0 then 0
    else fsrc.getD l 0 * (alen / (s1 - s0)) * dl
  else 0

/-- `log_rebin` (preprocessing.py:276-343): returns
`(log_wave, log_flux)`; flux accumulated per bin over all source pixels
and divided by the destination bin width.  The imperative accumulation
adds each `(pixel, bin)` contribution exactly once, so it equals this
sum. -/
def log_rebin (ρ : ℚ → ℚ) (binCenter binWidth : ℕ → ℚ) (nlog : ℕ)
    (wave fsrc : List ℚ) : List ℚ × List ℚ :=
  ((List.range nlog).map binCenter,
   (List.range nlog).map fun j : ℕ =>
     (((List.range wave.length).map fun l : ℕ =>
         pixelContrib ρ wave fsrc nlog l ((j : ℤ) + 1)).sum) / binWidth j)

/-- Strictly increasing wavelengths give strictly increasing pixel edges. -/
theorem pixelEdge_step_mono (wave : List ℚ)
    (hw : ∀ k, k + 1 < wave.length → wave.getD k 0 < wave.getD (k+1) 0)
    (h2 : 2 ≤ wave.length) :
    ∀ k, k ≤ wave.length - 1 → pixelEdge wave k < pixelEdge wave (k+1) := by
  intro k hk
  rcases Nat.eq_zero_or_pos k with h0 | h0
  · -- k = 0
    subst h0
    have h01 : wave.getD 0 0 < wave.getD 1 0 := hw 0 (by omega)
    rw [pixelEdge, pixelEdge]
    rw [if_pos rfl, if_neg (by omega : ¬(0+1) = 0), if_pos (by omega : 0+1 < wave.length)]
    rw [show (0:ℕ)+1-1 = 0 from rfl, show (0:ℕ)+1 = 1 from rfl]
    linarith
  · -- 1 ≤ k
    by_cases hlast : k = wave.length - 1
    · subst hlast
      have hprev : wave.getD (wave.length - 2) 0 < wave.getD (wave.length - 1) 0 := by
        have h' := hw (wave.length - 2) (by omega)
        have heq : wave.length - 2 + 1 = wave.length - 1 := by omega
        rw [heq] at h'
        exact h'
      rw [pixelEdge, pixelEdge]
      rw [if_neg (by omega), if_pos (by omega), if_neg (by omega), if_neg (by omega)]
      have heq2 : wave.length - 1 - 1 = wave.length - 2 := by omega
      rw [heq2]
      linarith
    · -- 1 ≤ k < n - 1 : both midpoints
      have hmid : wave.getD (k-1) 0 < wave.getD (k+1) 0 := by
        have ha := hw (k-1) (by omega)
        have hb := hw k (by omega)
        have heq : k - 1 + 1 = k := by omega
        rw [heq] at ha
        linarith
      rw [pixelEdge, pixelEdge]
      rw [if_neg (by omega), if_pos (by omega), if_neg (by omega), if_pos (by omega)]
      have heq : k + 1 - 1 = k := by omega
      rw [heq]
      linarith

theorem pixelEdge_mono_aux (wave : List ℚ)
    (hw : ∀ k, k + 1 < wave.length → wave.getD k 0 < wave.getD (k+1) 0)
    (h2 : 2 ≤ wave.length) :
    ∀ d a, a + d ≤ wave.length → pixelEdge wave a ≤ pixelEdge wave (a + d)
  | 0, _, _ => le_of_eq rfl
  | d+1, a, h => by
    have ha : pixelEdge wave a ≤ pixelEdge wave (a + d) :=
      pixelEdge_mono_aux wave hw h2 d a (by omega)
    have hb : pixelEdge wave (a + d) < pixelEdge wave (a + d + 1) :=
      pixelEdge_step_mono wave hw h2 (a + d) (by omega)
    exact le_trans ha (le_of_lt hb)

/-- The pixel-edge sequence is monotone over `0 ≤ a ≤ b ≤ n`. -/
theorem pixelEdge_mono (wave : List ℚ)
    (hw : ∀ k, k + 1 < wave.length → wave.getD k 0 < wave.getD (k+1) 0)
    (h2 : 2 ≤ wave.length) (a b : ℕ) (hab : a ≤ b) (hbn : b ≤ wave.length) :
    pixelEdge wave a ≤ pixelEdge wave b := by
  have h := pixelEdge_mono_aux wave hw h2 (b - a) a (by omega)
  rwa [Nat.add_sub_cancel' hab] at h

theorem getD_map_range (f : ℕ → ℚ) (n j : ℕ) (hj : j < n) :
    ((List.range n).map f).getD j 0 = f j := by
  rw [List.getD_eq_getElem?_getD, List.getElem?_map, List.getElem?_range hj]
  rfl

/-- C7: the flux array returned by `log_rebin` has length `NW`, and every
log-grid bin lying entirely outside the input's wavelength coverage (the
extrapolated pixel edges, mapped through the monotone log-coordinate map
`ρ`) is exactly 0. -/
theorem log_rebin_zero_outside_coverage (ρ : ℚ → ℚ) (binCenter binWidth : ℕ → ℚ)
    (nlog : ℕ) (wave fsrc : List ℚ) (j : ℕ)
    (h2 : 2 ≤ wave.length)
    (hw : ∀ k, k + 1 < wave.length → wave.getD k 0 < wave.getD (k+1) 0)
    (hρ : Monotone ρ)
    (hj : j < nlog)
    (hout : ((j : ℚ) + 2) ≤ ρ (pixelEdge wave 0) ∨
      ρ (pixelEdge wave wave.length) ≤ ((j : ℚ) + 1)) :
    (log_rebin ρ binCenter binWidth nlog wave fsrc).2.length = nlog ∧
      (log_rebin ρ binCenter binWidth nlog wave fsrc).2.getD j 0 = 0 := by
  constructor
  · simp only [log_rebin]
    rw [List.length_map, List.length_range]
  · have hcontrib : ∀ l, l < wave.length →
        pixelContrib ρ wave fsrc nlog l ((j : ℤ) + 1) = 0 := by
      intro l hl
      have hs0 : ρ (pixelEdge wave 0) ≤ ρ (pixelEdge wave l) :=
        hρ (pixelEdge_mono wave hw h2 0 l (Nat.zero_le l) (le_of_lt hl))
      have hs1 : ρ (pixelEdge wave (l+1)) ≤ ρ (pixelEdge wave wave.length) :=
        hρ (pixelEdge_mono wave hw h2 (l+1) wave.length (by omega) (le_refl _))
      simp only [pixelContrib]
      split_ifs with hin halen
      · rfl
      · exfalso
        apply halen
        push_cast
        have hmin := min_le_right (ρ (pixelEdge wave (l+1))) ((j : ℚ) + 1 + 1)
        have hmin' := min_le_left (ρ (pixelEdge wave (l+1))) ((j : ℚ) + 1 + 1)
        have hmax := le_max_left (ρ (pixelEdge wave l)) ((j : ℚ) + 1)
        have hmax' := le_max_right (ρ (pixelEdge wave l)) ((j : ℚ) + 1)
        rcases hout with hleft | hright
        · linarith
        · linarith
      · rfl
    have hsum : (((List.range wave.length).map fun l =>
        pixelContrib ρ wave fsrc nlog l ((j : ℤ) + 1)).sum) = 0 := by
      apply List.sum_eq_zero
      intro x hx
      rcases List.mem_map.mp hx with ⟨l, hlmem, rfl⟩
      exact hcontrib l (List.mem_range.mp hlmem)
    simp only [log_rebin]
    rw [getD_map_range _ _ _ hj, hsum, zero_div]

/-- Witness for C7: identity coordinate map, grid of 4 bins, two samples
`[1, 2]` (coverage `[0.5, 2.5]`); bin 3 (1-indexed 4, covering `[4,5]`)
lies right of the coverage and receives exactly 0. -/
theorem log_rebin_zero_outside_coverage_witness :
    (log_rebin id (fun _ => 1) (fun _ => 1) 4 [1, 2] [1, 1]).2.length = 4 ∧
      (log_rebin id (fun _ => 1) (fun _ => 1) 4 [1, 2] [1, 1]).2.getD 3 0 = 0 :=
  log_rebin_zero_outside_coverage id (fun _ => 1) (fun _ => 1) 4 [1, 2] [1, 1] 3
    (by decide)
    (by
      intro k hk
      have hk0 : k = 0 := by
        simp only [List.length_cons, List.length_nil] at hk
        omega
      subst hk0
      norm_num [List.getD])
    (fun _ _ h => h) (by decide)
    (Or.inr (by norm_num [pixelEdge, List.getD]))

/-! ## The identify CLI: `snid_sage/interfaces/cli/identify.py`

`main` (identify.py:723-941) is modelled as a pure function from the
outcomes of its external calls (file checks, template discovery, the
analysis itself — each an `Except` whose `.error` means the call raised)
to the exit code and the ordered list of lines printed, each tagged with
its stream.  Helper output (progress indicator, saved-output and summary
printing) is stdout-only in the source — none of those helpers writes to
stderr — and is carried as opaque stdout lines. -/

inductive StreamK
  | stdout
  | stderr
deriving DecidableEq

structure Emit where
  stream : StreamK
  text : String
deriving DecidableEq

/-- `print(s)` (stdout). -/
def outLine (s : String) : Emit := ⟨.stdout, s⟩

/-- `print("[ERROR] " + s, file=sys.stderr)`. -/
def errLine (s : String) : Emit := ⟨.stderr, "[ERROR] " ++ s⟩

/-- The fields of `SNIDResult` that `main` reads. -/
structure SNIDResultC where
  success : Bool
  error_message : Option String
deriving DecidableEq

/-- Outcomes of the external calls `main` makes, in program order. -/
structure CliEnv where
  verbose : Bool
  minimal : Bool
  complete : Bool
  spectrumPath : String
  spectrumName : String
  outputDir : String
  /-- `os.path.exists(args.spectrum_path)` (identify.py:740). -/
  spectrumExists : Bool
  /-- `_validate_and_fix_templates_dir` (identify.py:746): `.error
  (.fileNotFound _)` is caught at identify.py:747-749; other raises fall
  through to the outer handlers. -/
  templatesDir : Except PyExc String
  /-- stdout notes the validation helper prints when it succeeds. -/
  templatesNotes : List String
  /-- `read_spectrum` (identify.py:770). -/
  readSpectrum : Except PyExc Unit
  /-- `preprocess_spectrum` (identify.py:777). -/
  preprocess : Except PyExc Unit
  /-- `run_snid_analysis` (identify.py:836); `.ok none` models a falsy
  result object. -/
  analysis : Except PyExc (Option SNIDResultC)
  /-- `Path(args.output_dir).mkdir(...)` (identify.py:880). -/
  mkdirOutputDir : Except PyExc Unit
  /-- stdout lines from `_save_spectrum_outputs` (its own failures are
  swallowed at identify.py:674-676 and logged, not printed). -/
  saveNotes : List String
  /-- whether `create_unified_formatter` imports (identify.py:903-912). -/
  formatterAvailable : Bool
  formatterSummary : String

def PyExc.msg : PyExc → String
  | .typeError m => m
  | .valueError m => m
  | .fileNotFound m => m
  | .other m => m

/-- The outer exception handlers (identify.py:933-941):
`FileNotFoundError` → one `[ERROR]` stderr line; any other exception →
one `[ERROR]` stderr line plus, in verbose mode, `traceback.print_exc()`
(which writes an unprefixed traceback to stderr). -/
def excEmit (verbose : Bool) (e : PyExc) : List Emit :=
  match e with
  | .fileNotFound m => [errLine ("File not found - " ++ m)]
  | e' =>
    [errLine ("Error during SNID identification: " ++ e'.msg)] ++
      (if verbose then [⟨.stderr, "Traceback (most recent call last):"⟩] else [])

/-- `"="*80` and `"-"*80`. -/
def ruleLine (c : Char) : String := ⟨List.replicate 80 c⟩

/-- `main` (identify.py:723-941). -/
def mainCLI (env : CliEnv) : ℤ × List Emit :=
  if env.spectrumExists = false then
    (1, [errLine ("Spectrum file not found: " ++ env.spectrumPath)])
  else
    match env.templatesDir with
    | .error (.fileNotFound m) => (1, [errLine m])
    | .error e => (1, excEmit env.verbose e)
    | .ok _ =>
      let acc0 := env.templatesNotes.map outLine
      match env.readSpectrum with
      | .error e => (1, acc0 ++ excEmit env.verbose e)
      | .ok _ =>
        match env.preprocess with
        | .error e => (1, acc0 ++ excEmit env.verbose e)
        | .ok _ =>
          let acc1 := acc0 ++
            (if env.verbose then [] else [outLine "🔍 Starting SNID analysis..."])
          match env.analysis with
          | .error e => (1, acc1 ++ excEmit env.verbose e)
          | .ok r =>
            let finishEmits : List Emit :=
              if env.verbose then []
              else
                [outLine ("\r[SUCCESS] " ++
                  (match r with
                   | some res => if res.success then "Analysis complete" else "Analysis failed"
                   | none => "Analysis failed")),
                 outLine ""]
            let acc2 := acc1 ++ finishEmits
            match r with
            | none =>
              (1, acc2 ++ [outLine ("\n[ERROR] SNID analysis failed for " ++ env.spectrumName)])
            | some res =>
              if res.success = false then
                (1, acc2 ++
                  [outLine ("\n[ERROR] SNID analysis failed for " ++ env.spectrumName)] ++
                  (match res.error_message with
                   | some m => [outLine ("   Error: " ++ m)]
                   | none => []))
              else
                match env.mkdirOutputDir with
                | .error e => (1, acc2 ++ excEmit env.verbose e)
                | .ok _ =>
                  let saveEmits := env.saveNotes.map outLine
                  let summaryEmits : List Emit :=
                    if env.formatterAvailable then
                      [outLine ("\n" ++ ruleLine '='),
                       outLine env.formatterSummary,
                       outLine (ruleLine '=')]
                    else
                      [outLine ("\n📄 " ++ env.spectrumName), outLine (ruleLine '-')]
                  let tailEmits : List Emit :=
                    if env.minimal = false then
                      [outLine ("\n📁 Results saved to: " ++ env.outputDir ++ "/")] ++
                        (if env.complete then
                          [outLine "   📊 3D Plots: Static PNG files with optimized viewing angle",
                           outLine "   📈 Top 5 templates: Sorted by RLAP (highest quality first)"]
                         else [])
                    else [outLine ("📁 Main result file saved to: " ++ env.outputDir ++ "/")]
                  (0, acc2 ++ saveEmits ++ summaryEmits ++ tailEmits)

/-- The run succeeds exactly when every step succeeds and the analysis
result is truthy with `success` set. -/
def cliSucceedsB (env : CliEnv) : Bool :=
  env.spectrumExists &&
  env.templatesDir.isOk &&
  env.readSpectrum.isOk &&
  env.preprocess.isOk &&
  (match env.analysis with
   | .ok (some r) => r.success
   | _ => false) &&
  env.mkdirOutputDir.isOk

/-- An emission respects the stderr discipline: if it goes to stderr its
text carries the `[ERROR] ` prefix. -/
def emitOk (e : Emit) : Prop := e.stream = .stderr → ∃ s, e.text = "[ERROR] " ++ s

theorem emitOk_outLine (s : String) : emitOk (outLine s) := fun h => nomatch h

theorem emitOk_errLine (s : String) : emitOk (errLine s) := fun _ => ⟨s, rfl⟩

theorem emitOk_map_outLine (notes : List String) :
    ∀ e ∈ notes.map outLine, emitOk e := by
  intro e he
  rcases List.mem_map.mp he with ⟨t, _, rfl⟩
  exact emitOk_outLine t

theorem emitOk_excEmit (e : PyExc) : ∀ x ∈ excEmit false e, emitOk x := by
  intro x hx
  cases e with
  | fileNotFound m =>
    have hx' : x ∈ [errLine ("File not found - " ++ m)] := hx
    rw [List.mem_singleton] at hx'
    subst hx'
    exact emitOk_errLine _
  | typeError m =>
    have hx' : x ∈ [errLine ("Error during SNID identification: " ++ m)] := hx
    rw [List.mem_singleton] at hx'
    subst hx'
    exact emitOk_errLine _
  | valueError m =>
    have hx' : x ∈ [errLine ("Error during SNID identification: " ++ m)] := hx
    rw [List.mem_singleton] at hx'
    subst hx'
    exact emitOk_errLine _
  | other m =>
    have hx' : x ∈ [errLine ("Error during SNID identification: " ++ m)] := hx
    rw [List.mem_singleton] at hx'
    subst hx'
    exact emitOk_errLine _

theorem emitOk_append {l₁ l₂ : List Emit} (h₁ : ∀ e ∈ l₁, emitOk e)
    (h₂ : ∀ e ∈ l₂, emitOk e) : ∀ e ∈ l₁ ++ l₂, emitOk e := by
  intro e he
  rcases List.mem_append.mp he with h | h
  · exact h₁ e h
  · exact h₂ e h

theorem emitOk_nil : ∀ e ∈ ([] : List Emit), emitOk e := by
  intro e he
  cases he

theorem emitOk_cons {x : Emit} {l : List Emit} (hx : emitOk x)
    (hl : ∀ e ∈ l, emitOk e) : ∀ e ∈ x :: l, emitOk e := by
  intro e he
  rcases List.mem_cons.mp he with rfl | h
  · exact hx
  · exact hl e h

theorem emitOk_ite {c : Prop} [Decidable c] {l₁ l₂ : List Emit}
    (h₁ : ∀ e ∈ l₁, emitOk e) (h₂ : ∀ e ∈ l₂, emitOk e) :
    ∀ e ∈ (if c then l₁ else l₂), emitOk e := by
  split_ifs <;> assumption

/-- C5 (amended): the identify CLI returns 0 exactly when every stage
succeeds and the analysis result is successful, and 1 on any failure;
in non-verbose runs every line it writes to stderr is prefixed
`[ERROR] ` (the only unprefixed stderr output is the optional verbose
traceback dump) — but not every error message goes to stderr: the
analysis-failure / no-good-matches message goes to stdout. -/
theorem mainCLI_exit_codes_and_stderr_discipline (env : CliEnv) :
    ((mainCLI env).1 = if cliSucceedsB env then 0 else 1) ∧
      (env.verbose = false → ∀ e ∈ (mainCLI env).2, emitOk e) := by
  obtain ⟨v, mi, co, sp, sn, od, se, td, tn, rs, pp, an, mk, sv, fa, fs⟩ := env
  cases se with
  | false =>
    refine ⟨rfl, ?_⟩
    intro _
    exact emitOk_cons (emitOk_errLine _) emitOk_nil
  | true =>
    cases td with
    | error exc =>
      cases exc with
      | fileNotFound m =>
        exact ⟨rfl, fun _ => emitOk_cons (emitOk_errLine _) emitOk_nil⟩
      | typeError m =>
        refine ⟨rfl, ?_⟩
        intro hv
        subst hv
        exact emitOk_excEmit (.typeError m)
      | valueError m =>
        refine ⟨rfl, ?_⟩
        intro hv
        subst hv
        exact emitOk_excEmit (.valueError m)
      | other m =>
        refine ⟨rfl, ?_⟩
        intro hv
        subst hv
        exact emitOk_excEmit (.other m)
    | ok t =>
      cases rs with
      | error exc =>
        refine ⟨rfl, ?_⟩
        intro hv
        subst hv
        exact emitOk_append (emitOk_map_outLine tn) (emitOk_excEmit exc)
      | ok u =>
        cases pp with
        | error exc =>
          refine ⟨rfl, ?_⟩
          intro hv
          subst hv
          exact emitOk_append (emitOk_map_outLine tn) (emitOk_excEmit exc)
        | ok u2 =>
          cases an with
          | error exc =>
            refine ⟨rfl, ?_⟩
            intro hv
            subst hv
            exact emitOk_append
              (emitOk_append (emitOk_map_outLine tn)
                (emitOk_ite emitOk_nil (emitOk_cons (emitOk_outLine _) emitOk_nil)))
              (emitOk_excEmit exc)
          | ok r =>
            cases r with
            | none =>
              refine ⟨rfl, ?_⟩
              intro hv
              subst hv
              exact emitOk_append
                (emitOk_append
                  (emitOk_append (emitOk_map_outLine tn)
                    (emitOk_ite emitOk_nil (emitOk_cons (emitOk_outLine _) emitOk_nil)))
                  (emitOk_ite emitOk_nil
                    (emitOk_cons (emitOk_outLine _) (emitOk_cons (emitOk_outLine _) emitOk_nil))))
                (emitOk_cons (emitOk_outLine _) emitOk_nil)
            | some res =>
              obtain ⟨suc, em⟩ := res
              cases suc with
              | false =>
                refine ⟨rfl, ?_⟩
                intro hv
                subst hv
                refine emitOk_append ?_ ?_
                · exact emitOk_append
                    (emitOk_append
                      (emitOk_append (emitOk_map_outLine tn)
                        (emitOk_ite emitOk_nil (emitOk_cons (emitOk_outLine _) emitOk_nil)))
                      (emitOk_ite emitOk_nil
                        (emitOk_cons (emitOk_outLine _)
                          (emitOk_cons (emitOk_outLine _) emitOk_nil))))
                    (emitOk_cons (emitOk_outLine _) emitOk_nil)
                · cases em with
                  | none => exact emitOk_nil
                  | some m => exact emitOk_cons (emitOk_outLine _) emitOk_nil
              | true =>
                cases mk with
                | error exc =>
                  refine ⟨rfl, ?_⟩
                  intro hv
                  subst hv
                  exact emitOk_append
                    (emitOk_append
                      (emitOk_append (emitOk_map_outLine tn)
                        (emitOk_ite emitOk_nil (emitOk_cons (emitOk_outLine _) emitOk_nil)))
                      (emitOk_ite emitOk_nil
                        (emitOk_cons (emitOk_outLine _)
                          (emitOk_cons (emitOk_outLine _) emitOk_nil))))
                    (emitOk_excEmit exc)
                | ok u3 =>
                  refine ⟨rfl, ?_⟩
                  intro hv
                  subst hv
                  refine emitOk_append
                    (emitOk_append
                      (emitOk_append
                        (emitOk_append
                          (emitOk_append (emitOk_map_outLine tn)
                            (emitOk_ite emitOk_nil
                              (emitOk_cons (emitOk_outLine _) emitOk_nil)))
                          (emitOk_ite emitOk_nil
                            (emitOk_cons (emitOk_outLine _)
                              (emitOk_cons (emitOk_outLine _) emitOk_nil))))
                        (emitOk_map_outLine sv))
                      (emitOk_ite
                        (emitOk_cons (emitOk_outLine _) (emitOk_cons (emitOk_outLine _)
                          (emitOk_cons (emitOk_outLine _) emitOk_nil)))
                        (emitOk_cons (emitOk_outLine _) (emitOk_cons (emitOk_outLine _)
                          emitOk_nil))))
                    (emitOk_ite
                      (emitOk_append (emitOk_cons (emitOk_outLine _) emitOk_nil)
                        (emitOk_ite
                          (emitOk_cons (emitOk_outLine _) (emitOk_cons (emitOk_outLine _)
                            emitOk_nil))
                          emitOk_nil))
                      (emitOk_cons (emitOk_outLine _) emitOk_nil))

/-- Environment of a run whose analysis reports failure (e.g. no good
matches): every stage before the analysis succeeds. -/
def envAnalysisFailed : CliEnv :=
  { verbose := false
    minimal := false
    complete := false
    spectrumPath := "spec.txt"
    spectrumName := "spec"
    outputDir := "out"
    spectrumExists := true
    templatesDir := .ok "templates"
    templatesNotes := []
    readSpectrum := .ok ()
    preprocess := .ok ()
    analysis := .ok (some { success := false, error_message := some "no matches" })
    mkdirOutputDir := .ok ()
    saveNotes := []
    formatterAvailable := true
    formatterSummary := "" }

/-- C5 counterexample: on an analysis failure the CLI exits 1, but its
`[ERROR]`-prefixed failure message is printed to STDOUT and nothing at
all is written to stderr — contradicting "every error message is written
to stderr". -/
theorem cli_analysis_failure_error_goes_to_stdout :
    (mainCLI envAnalysisFailed).1 = 1 ∧
      (outLine ("\n[ERROR] SNID analysis failed for " ++ "spec")) ∈
        (mainCLI envAnalysisFailed).2 ∧
      ∀ e ∈ (mainCLI envAnalysisFailed).2, e.stream = .stdout := by
  decide

/-- Witness for the amended C5 theorem at the concrete failing run. -/
theorem mainCLI_exit_codes_and_stderr_discipline_witness :
    ((mainCLI envAnalysisFailed).1 = if cliSucceedsB envAnalysisFailed then 0 else 1) ∧
      (envAnalysisFailed.verbose = false →
        ∀ e ∈ (mainCLI envAnalysisFailed).2, emitOk e) :=
  mainCLI_exit_codes_and_stderr_discipline envAnalysisFailed

end SnidSage
